import Mathlib

/-!
Shallow embedding of the `sveltekit-inngest` realtime bridge.

Server side (`src/lib/server/createRealtimeEndpoint.ts`): the POST handler
produced by `createRealtimeEndpoint` — channel registry resolution, topic
validation, request-time authorization, the per-message reauthorization step
of the SSE pump, the shared `stop` teardown path, and `resolveFailureMessage`.

Client side (`src/lib/client/RealtimeManager.svelte`): the subscription
manager — `resolveChannel`, `normalizeTopics`, `serializeSignature`,
`resolveSubscriptions`, and the `syncConnections` reconciliation over the
`activeConnections` record.

Conventions of the embedding:
* JS exceptions are `Except String` (the carried string is the thrown
  error's message, i.e. the result of `formatError`).
* JS objects whose own string keys are not integer-like are insertion
  ordered; they are modelled as association lists in insertion order.
* Opaque request data (the SvelteKit `RequestEvent`, `locals`, `Request`)
  is fixed for the lifetime of one request and carries no information the
  embedded logic inspects, so it is omitted from the callback contexts.
* Channel builder factories are total functions; a factory that throws can
  be folded into the (Except-valued) params resolver, which the scan wraps
  in the same `try` block.
-/

namespace Realtime

/-- Primitive values `normalizeParams` keeps in `params`
(string / number / boolean / null). Numbers are modelled as integers. -/
inductive Prim where
  | str (s : String)
  | num (n : Int)
  | bool (b : Bool)
  | null
deriving DecidableEq, Repr

/-- A request `params` record: JS object own-properties in insertion order
(the JS order for non-integer-like string keys). -/
abbrev Params := List (String × Prim)

/-- JS runtime values, to the extent the endpoint inspects them
(`getMessageTopic`, the `onFailure` hook result, `reauthorize` results). -/
inductive JsVal where
  | undef
  | null
  | bool (b : Bool)
  | num (n : Int)
  | str (s : String)
  | arr (elems : List JsVal)
  | obj (fields : List (String × JsVal))

/-- A resolved channel: its `name` plus `Object.keys(resolvedChannel.topics)`. -/
structure ResolvedChannel where
  name : String
  topics : List String
deriving DecidableEq, Repr

/-- A channel registry value: either a concrete channel object or a channel
builder function taking an optional string param. -/
inductive ChannelInput where
  | obj (channel : ResolvedChannel)
  | builder (build : Option String → ResolvedChannel)

/-- `resolveChannel` from both the server endpoint and the client manager:
call the factory (with the param when present) or return the object as is. -/
def resolveChannel : ChannelInput → Option String → ResolvedChannel
  | .obj c, _ => c
  | .builder build, p => build p

/-- `Array.prototype.includes` / `Set.has` on strings. -/
def includesStr : List String → String → Bool
  | [], _ => false
  | x :: rest, a => if x = a then true else includesStr rest a

theorem includesStr_iff {l : List String} {a : String} :
    includesStr l a = true ↔ a ∈ l := by
  induction l with
  | nil => simp [includesStr]
  | cons x rest ih =>
    by_cases hx : x = a
    · simp [includesStr, hx]
    · simp [includesStr, hx, ih, Ne.symm hx]

/-- Result of the `authorize` callback:
`true` / `false` / `{ allowedTopics? }`. -/
inductive AuthorizationResult where
  | bool (b : Bool)
  | obj (allowedTopics : Option (List String))

/-- Context handed to `authorize` (the opaque `event` / `locals` /
`request` fields are omitted, see the header comment). -/
structure AuthorizeContext where
  channelId : String
  topics : List String
  params : Option Params

/-- Context handed to the dedicated `reauthorize` callback. -/
structure ReauthorizeContext where
  channelId : String
  topics : List String
  params : Option Params
  messageTopic : String
  message : JsVal

/-- `channelParams` of a registry entry: a static string or a resolver
callback `(event, requestedChannelId, requestParams) => string` that may
throw. -/
inductive ChannelParams where
  | static (value : String)
  | resolver (run : String → Option Params → Except String String)

/-- One value of the channel registry (`RealtimeChannelConfig`). -/
structure RealtimeChannelConfig where
  channel : ChannelInput
  channelParams : Option ChannelParams := none
  reauthorizeOnEachMessage : Option Bool := none
  reauthorize : Option (ReauthorizeContext → Except String JsVal) := none
  authorize : AuthorizeContext → Except String AuthorizationResult

/-- The `stage` tag of a server failure context. -/
inductive FailureStage where
  | requestValidation
  | channelResolution
  | topicValidation
  | authorization
  | reauthorization
  | stream
deriving DecidableEq, Repr

/-- `RealtimeServerFailureContext` (opaque `event` / `locals` / `request`
omitted; `error` carries the formatted thrown message when present). -/
structure RealtimeServerFailureContext where
  stage : FailureStage
  message : String
  status : Option Nat := none
  error : Option String := none
  requestedChannelId : Option String := none
  channelId : Option String := none
  topics : Option (List String) := none
  params : Option Params := none

/-- The parsed POST payload (`parseRequestPayload` result, non-null case). -/
structure RealtimeRequestPayload where
  channel : String
  topics : Option (List String) := none
  params : Option Params := none

/-- Endpoint configuration (`RealtimeEndpointOptions`); the registry is the
insertion-ordered `Object.entries(channels)` list. The `healthCheck` options
only govern the liveness timer inside the stream pump and are not consulted
by any logic embedded here. -/
structure RealtimeEndpointOptions where
  channels : List (String × RealtimeChannelConfig)
  reauthorizeOnEachMessage : Option Bool := none
  onFailure : Option (RealtimeServerFailureContext → Except String JsVal) := none

/-- The `onFailure` hook result check of `resolveFailureMessage`:
`result && typeof result === "object" && !Array.isArray(result) &&
typeof result.message === "string"`. Only a non-null non-array object with
a string `message` field yields an override. -/
def hookOverrideMessage : JsVal → Option String
  | .obj fields =>
    match List.lookup "message" fields with
    | some (.str m) => some m
    | _ => none
  | _ => none

/-- `resolveFailureMessage`: run the configured hook on the full failure
context; a string `message` in a conforming result replaces the default;
a thrown hook error is swallowed and the default message is used. -/
def resolveFailureMessage
    (onFailure : Option (RealtimeServerFailureContext → Except String JsVal))
    (failure : RealtimeServerFailureContext) : String :=
  match onFailure with
  | none => failure.message
  | some hook =>
    match hook failure with
    | .error _ => failure.message
    | .ok result =>
      match hookOverrideMessage result with
      | some m => m
      | none => failure.message

/-- Values of the JSON error body beyond the `error` key
(`jsonError`'s `extra`). -/
inductive ExtraVal where
  | str (s : String)
  | list (xs : List String)
deriving DecidableEq, Repr

/-- `jsonError` body: the `error` key first, then the spread `extra`. -/
def mkErrorBody (message : String) (extra : List (String × ExtraVal)) :
    List (String × ExtraVal) :=
  ("error", .str message) :: extra

/-- The per-connection state captured when the handler reaches `produce`:
everything the SSE pump closes over. -/
structure StreamSession where
  channelId : String
  availableTopics : List String
  authorizedTopics : List String
  shouldReauthorize : Bool
  reauthorize : Option (ReauthorizeContext → Except String JsVal)
  authorize : AuthorizeContext → Except String AuthorizationResult
  params : Option Params

/-- Outcome of one request: a JSON error response (status, failure stage,
body) or an opened SSE stream. -/
inductive HandlerResult where
  | response (status : Nat) (stage : FailureStage) (body : List (String × ExtraVal))
  | stream (session : StreamSession)

def HandlerResult.statusOf : HandlerResult → Option Nat
  | .response s _ _ => some s
  | .stream _ => none

def HandlerResult.stageOf : HandlerResult → Option FailureStage
  | .response _ st _ => some st
  | .stream _ => none

def HandlerResult.isStream : HandlerResult → Bool
  | .response _ _ _ => false
  | .stream _ => true

/-- Lookup of a key in a JSON error body. -/
def HandlerResult.bodyLookup : HandlerResult → String → Option ExtraVal
  | .response _ _ body, k => lookupBody body k
  | .stream _, _ => none
where lookupBody : List (String × ExtraVal) → String → Option ExtraVal
  | [], _ => none
  | (k', v) :: rest, k => if k' = k then some v else lookupBody rest k

/-- `failRequest`: resolve the message through the failure hook, then answer
with `jsonError(status, resolvedMessage, extra)`. -/
def failRequest
    (onFailure : Option (RealtimeServerFailureContext → Except String JsVal))
    (status : Nat) (ctx : RealtimeServerFailureContext)
    (extra : List (String × ExtraVal)) : HandlerResult :=
  .response status ctx.stage (mkErrorBody (resolveFailureMessage onFailure ctx) extra)

/-- `filterAllowedTopics`: intersect the requested topics with an optional
`allowedTopics` list (requested order kept). -/
def filterAllowedTopics (requested : List String) (allowed : Option (List String)) :
    List String :=
  match allowed with
  | none => requested
  | some allowedList => requested.filter (fun t => includesStr allowedList t)

/-- `resolveChannelParams`: a static string is used as is; a resolver
callback is invoked (and may throw). -/
def resolveChannelParams :
    Option ChannelParams → String → Option Params → Except String (Option String)
  | none, _, _ => .ok none
  | some (.static v), _, _ => .ok (some v)
  | some (.resolver run), requestedChannelId, requestParams =>
    match run requestedChannelId requestParams with
    | .error e => .error e
    | .ok v => .ok (some v)

/-- One registry entry's resolution for the current request: the body of the
per-entry `try` block (`resolveChannelParams` then `resolveChannel`). -/
def resolveEntryChannel (cfg : RealtimeChannelConfig) (requestedChannelKey : String)
    (params : Option Params) : Except String ResolvedChannel :=
  match resolveChannelParams cfg.channelParams requestedChannelKey params with
  | .error e => .error e
  | .ok p => .ok (resolveChannel cfg.channel p)

/-- One collected element of `channelMatches`. -/
structure ChannelMatch where
  registryKey : String
  channelConfig : RealtimeChannelConfig
  resolvedChannel : ResolvedChannel

/-- The registry scan loop: resolve every entry in registry order, short
circuit on a thrown resolution error, collect the entries whose resolved
name equals the requested channel key. -/
def channelMatchScan (chans : List (String × RealtimeChannelConfig))
    (requestedKey : String) (params : Option Params) :
    Except String (List ChannelMatch) :=
  match chans with
  | [] => .ok []
  | (key, cfg) :: rest =>
    match resolveEntryChannel cfg requestedKey params with
    | .error e => .error e
    | .ok rc =>
      match channelMatchScan rest requestedKey params with
      | .error e => .error e
      | .ok ms =>
        .ok (if rc.name = requestedKey then ⟨key, cfg, rc⟩ :: ms else ms)

/-- `requestedTopics`: the payload's topics when present and non-empty,
otherwise every topic of the resolved channel. -/
def requestedTopicsOf (payload : RealtimeRequestPayload) (rc : ResolvedChannel) :
    List String :=
  match payload.topics with
  | some ts => if ts.length > 0 then ts else rc.topics
  | none => rc.topics

/-- `invalidTopics`: requested topics missing from the channel's topic set. -/
def invalidTopicsOf (requestedTopics availableTopics : List String) : List String :=
  requestedTopics.filter (fun t => !includesStr availableTopics t)

/-- The authorization stage: invoke `authorize` with the requested topics,
interpret `false` / thrown error / subset-to-empty as 403 `Forbidden`,
otherwise open the stream with the authorized topic set. -/
def authorizeStage (opts : RealtimeEndpointOptions) (payload : RealtimeRequestPayload)
    (cfg : RealtimeChannelConfig) (rc : ResolvedChannel)
    (requestedTopics : List String) : HandlerResult :=
  let ctx : AuthorizeContext :=
    { channelId := rc.name, topics := requestedTopics, params := payload.params }
  match cfg.authorize ctx with
  | .error e =>
    failRequest opts.onFailure 403
      { stage := .authorization, message := e, status := some 403, error := some e,
        requestedChannelId := some payload.channel, channelId := some rc.name,
        topics := some requestedTopics, params := payload.params } []
  | .ok (.bool false) =>
    failRequest opts.onFailure 403
      { stage := .authorization, message := "Forbidden", status := some 403,
        requestedChannelId := some payload.channel, channelId := some rc.name,
        topics := some requestedTopics, params := payload.params } []
  | .ok result =>
    let authorizedTopics :=
      match result with
      | .obj allowed => filterAllowedTopics requestedTopics allowed
      | .bool _ => requestedTopics
    if authorizedTopics = [] then
      failRequest opts.onFailure 403
        { stage := .authorization, message := "Forbidden", status := some 403,
          requestedChannelId := some payload.channel, channelId := some rc.name,
          topics := some requestedTopics, params := payload.params } []
    else
      .stream
        { channelId := rc.name
          availableTopics := rc.topics
          authorizedTopics := authorizedTopics
          shouldReauthorize :=
            cfg.reauthorizeOnEachMessage.getD (opts.reauthorizeOnEachMessage.getD false)
          reauthorize := cfg.reauthorize
          authorize := cfg.authorize
          params := payload.params }

/-- Processing after the registry produced exactly one match: default the
requested topics, reject unknown topics with a 400 `topic-validation`
failure listing them, otherwise run the authorization stage. -/
def processResolved (opts : RealtimeEndpointOptions) (payload : RealtimeRequestPayload)
    (cfg : RealtimeChannelConfig) (rc : ResolvedChannel) : HandlerResult :=
  let requestedTopics := requestedTopicsOf payload rc
  let invalidTopics := invalidTopicsOf requestedTopics rc.topics
  if invalidTopics ≠ [] then
    failRequest opts.onFailure 400
      { stage := .topicValidation, message := "Requested topics are not available",
        status := some 400, requestedChannelId := some payload.channel,
        channelId := some rc.name, topics := some requestedTopics,
        params := payload.params }
      [("invalidTopics", .list invalidTopics)]
  else
    authorizeStage opts payload cfg rc requestedTopics

/-- The POST handler returned by `createRealtimeEndpoint`, from the parsed
payload on: missing channel → 400; registry scan error → 500; zero matches
→ 400; several matches → 500 reporting the matching registry keys; exactly
one match → topic validation and authorization. -/
def createRealtimeEndpoint (opts : RealtimeEndpointOptions)
    (payload : RealtimeRequestPayload) : HandlerResult :=
  if payload.channel = "" then
    failRequest opts.onFailure 400
      { stage := .requestValidation, message := "Missing channel",
        status := some 400, params := payload.params } []
  else
    match channelMatchScan opts.channels payload.channel payload.params with
    | .error e =>
      failRequest opts.onFailure 500
        { stage := .channelResolution, message := e, status := some 500,
          error := some e, requestedChannelId := some payload.channel,
          params := payload.params } []
    | .ok [] =>
      failRequest opts.onFailure 400
        { stage := .channelResolution, message := "Requested channel is not available",
          status := some 400, requestedChannelId := some payload.channel,
          params := payload.params } []
    | .ok [m] => processResolved opts payload m.channelConfig m.resolvedChannel
    | .ok ms =>
      failRequest opts.onFailure 500
        { stage := .channelResolution, message := "Realtime channel registry is ambiguous",
          status := some 500, requestedChannelId := some payload.channel,
          params := payload.params }
        [("requestedChannel", .str payload.channel),
         ("matchingRegistryKeys", .list (ms.map (fun m => m.registryKey)))]

/-- `value == null` (matches both `null` and `undefined`). -/
def isNullish : JsVal → Bool
  | .null => true
  | .undef => true
  | _ => false

/-- `getMessageTopic`: a non-null non-array object whose `topic` field is a
string yields that string, anything else yields null. -/
def getMessageTopic : JsVal → Option String
  | .obj fields =>
    match List.lookup "topic" fields with
    | some (.str t) => some t
    | _ => none
  | _ => none

/-- Outcome of the SSE pump's loop body for one upstream value. `degrade`
stands for `emitDegradedFailure` with stage `reauthorization` followed by
`break` (the loop then runs `stop()` in its `finally`, closing the stream);
its arguments are the default failure message and the context's `topics`. -/
inductive StepResult where
  | skip
  | forward
  | degrade (message : String) (topics : List String)
deriving DecidableEq, Repr

/-- The loop body of the SSE pump for one received `value`: skip nullish
values; when per-message reauthorization is on, require a known, authorized
string topic, then consult the dedicated `reauthorize` callback (which must
return exactly `true`) or fall back to `authorize` on the one-element topic
list; otherwise forward the message. -/
def processMessage (s : StreamSession) (value : JsVal) : StepResult :=
  if isNullish value then .skip
  else if s.shouldReauthorize then
    match getMessageTopic value with
    | none => .degrade "Realtime message is missing a valid topic" s.authorizedTopics
    | some messageTopic =>
      if !includesStr s.availableTopics messageTopic then
        .degrade ("Realtime message topic is not configured for channel: " ++ messageTopic)
          [messageTopic]
      else if !includesStr s.authorizedTopics messageTopic then
        .degrade ("Realtime message topic is not authorized for this connection: " ++ messageTopic)
          [messageTopic]
      else
        match s.reauthorize with
        | some reauth =>
          let ctx : ReauthorizeContext :=
            { channelId := s.channelId, topics := [messageTopic], params := s.params,
              messageTopic := messageTopic, message := value }
          match reauth ctx with
          | .error e => .degrade e [messageTopic]
          | .ok (.bool true) => .forward
          | .ok _ => .degrade "Forbidden" [messageTopic]
        | none =>
          let ctx : AuthorizeContext :=
            { channelId := s.channelId, topics := [messageTopic], params := s.params }
          match s.authorize ctx with
          | .error e => .degrade e [messageTopic]
          | .ok (.bool false) => .degrade "Forbidden" [messageTopic]
          | .ok (.bool true) => .forward
          | .ok (.obj allowed) =>
            if filterAllowedTopics [messageTopic] allowed = [] then
              .degrade "Forbidden" [messageTopic]
            else .forward
  else .forward

/-- Observable state of one SSE connection's teardown path: the `closed`
flag and whether a liveness timer / upstream reader handle is currently
held, plus counters for each observable effect. -/
structure StreamState where
  closed : Bool
  heartbeat : Bool
  reader : Bool
  clearIntervalCount : Nat
  cancelCount : Nat
  lockReleaseCount : Nat
  healthEmitCount : Nat
  messageEmitCount : Nat
deriving DecidableEq, Repr

/-- The shared `stop` teardown: a no-op once `closed`; otherwise set
`closed`, clear the liveness timer when one is set, attempt to cancel the
upstream reader when one is held, and release the connection lock. It never
emits `health` or `message` events. -/
def stop (s : StreamState) : StreamState :=
  if s.closed then s
  else
    { s with
      closed := true
      clearIntervalCount := s.clearIntervalCount + (if s.heartbeat then 1 else 0)
      cancelCount := s.cancelCount + (if s.reader then 1 else 0)
      lockReleaseCount := s.lockReleaseCount + 1 }

/-- A declarative client subscription descriptor (`RealtimeSubscription`). -/
structure RealtimeSubscription where
  channel : ChannelInput
  channelParams : Option String := none
  topics : Option (List String) := none
  params : Option Params := none

/-- A resolved subscription (`RealtimeResolvedSubscription`). -/
structure RealtimeResolvedSubscription where
  channelId : String
  topics : List String
  params : Option Params := none
deriving DecidableEq, Repr

/-- Code-unit-wise string comparison, as the default JS `Array.sort`
comparator orders strings (UTF-16 code units; code points coincide on the
inputs modelled here). -/
def charListLe : List Char → List Char → Bool
  | [], _ => true
  | _ :: _, [] => false
  | a :: as, b :: bs => if a < b then true else if b < a then false else charListLe as bs

def strLe (a b : String) : Bool := charListLe a.data b.data

def insertSorted (a : String) : List String → List String
  | [] => [a]
  | b :: rest => if strLe a b then a :: b :: rest else b :: insertSorted a rest

/-- A stable sort by `strLe`; extensionally the JS default string sort. -/
def sortStrings : List String → List String
  | [] => []
  | a :: rest => insertSorted a (sortStrings rest)

/-- First-occurrence deduplication (`[...new Set(topics)]`). -/
def dedupGo : List String → List String → List String
  | [], _ => []
  | a :: rest, seen =>
    if includesStr seen a then dedupGo rest seen else a :: dedupGo rest (a :: seen)

def dedupFirst (l : List String) : List String := dedupGo l []

/-- `normalizeTopics`: `[...new Set(topics)].sort()` — first-occurrence
deduplication followed by the default lexicographic string sort. -/
def normalizeTopics (topics : List String) : List String :=
  sortStrings (dedupFirst topics)

/-- JSON string escaping as far as the signature inputs need it (quote and
backslash; control characters are not modelled). -/
def jsonEscape (s : String) : String :=
  String.join (s.toList.map (fun c =>
    if c = '"' then "\\\"" else if c = '\\' then "\\\\" else String.singleton c))

def jsonStr (s : String) : String := "\"" ++ jsonEscape s ++ "\""

/-- `JSON.stringify` of a primitive params value. -/
def jsonPrim : Prim → String
  | .str s => jsonStr s
  | .num n => toString n
  | .bool true => "true"
  | .bool false => "false"
  | .null => "null"

/-- `JSON.stringify(subscription.params ?? null)`: own properties in
insertion order (the JS order for non-integer-like string keys). -/
def jsonParams : Option Params → String
  | none => "null"
  | some ps =>
    "\x7b" ++ String.intercalate ","
      (ps.map (fun p => jsonStr p.1 ++ ":" ++ jsonPrim p.2)) ++ "\x7d"

/-- `serializeSignature`: `JSON.stringify` of
`(endpoint, channel, normalizeTopics(topics), params ?? null)` in that
literal key order. -/
def serializeSignature (sub : RealtimeResolvedSubscription) (endpoint : String) :
    String :=
  "\x7b\"endpoint\":" ++ jsonStr endpoint ++
  ",\"channel\":" ++ jsonStr sub.channelId ++
  ",\"topics\":[" ++ String.intercalate "," ((normalizeTopics sub.topics).map jsonStr) ++ "]" ++
  ",\"params\":" ++ jsonParams sub.params ++ "\x7d"

/-- The channel id a descriptor resolves to. -/
def descriptorChannelId (sub : RealtimeSubscription) : String :=
  (resolveChannel sub.channel sub.channelParams).name

/-- The loop body of `resolveSubscriptions`, with the `seen` channel ids so
far: throw on a duplicate channel id, otherwise default the topics to the
full channel topic set, normalize them, and keep the caller's params. -/
def resolveSubsGo : List RealtimeSubscription → List String →
    Except String (List RealtimeResolvedSubscription)
  | [], _ => .ok []
  | sub :: rest, seen =>
    let resolvedChannel := resolveChannel sub.channel sub.channelParams
    let channelId := resolvedChannel.name
    if includesStr seen channelId then
      .error ("Duplicate realtime subscription for channel \"" ++ channelId ++
        "\" is not allowed.")
    else
      let requestedTopics :=
        match sub.topics with
        | some ts => if ts.length > 0 then ts else resolvedChannel.topics
        | none => resolvedChannel.topics
      match resolveSubsGo rest (channelId :: seen) with
      | .error e => .error e
      | .ok rs =>
        .ok ({ channelId := channelId, topics := normalizeTopics requestedTopics,
               params := sub.params } :: rs)

/-- `resolveSubscriptions`: resolve every descriptor, rejecting duplicate
channel ids. -/
def resolveSubscriptions (input : List RealtimeSubscription) :
    Except String (List RealtimeResolvedSubscription) :=
  resolveSubsGo input []

/-- One entry of `activeConnections`: the connection's reuse signature and
the identity of the channel context object `createConnection` built for it
(fresh per created connection). -/
structure ManagedConnection where
  signature : String
  contextId : Nat
deriving DecidableEq, Repr

/-- The `activeConnections` record: insertion-ordered, uniquely keyed by
channel id. -/
abbrev ConnMap := List (String × ManagedConnection)

/-- First-match key lookup (`activeConnections[channelId]`). -/
def lookupConn : ConnMap → String → Option ManagedConnection
  | [], _ => none
  | (k', c) :: rest, k => if k' = k then some c else lookupConn rest k

/-- `delete activeConnections[channelId]` (remaining insertion order kept). -/
def eraseConn : ConnMap → String → ConnMap
  | [], _ => []
  | (k', c) :: rest, k =>
    if k' = k then eraseConn rest k else (k', c) :: eraseConn rest k

/-- The removal loop of `syncConnections`: connections whose channel id is
still desired, in order. -/
def keepDesired : ConnMap → List String → ConnMap
  | [], _ => []
  | (k, c) :: rest, ids =>
    if includesStr ids k then (k, c) :: keepDesired rest ids
    else keepDesired rest ids

/-- Channel ids the removal loop tears down. -/
def removedKeys : ConnMap → List String → List String
  | [], _ => []
  | (k, _) :: rest, ids =>
    if includesStr ids k then removedKeys rest ids else k :: removedKeys rest ids

/-- `createConnection`: a fresh context object and the descriptor's
signature. -/
def newConnection (sub : RealtimeResolvedSubscription) (endpoint : String)
    (id : Nat) : ManagedConnection :=
  { signature := serializeSignature sub endpoint, contextId := id }

/-- Result of the creation loop of `syncConnections`: the updated
`activeConnections`, the fresh-context counter, and the channel ids whose
connections were stopped / created by the loop. -/
structure SyncAddResult where
  active : ConnMap
  counter : Nat
  torn : List String
  created : List String

/-- The creation loop of `syncConnections`: per desired subscription, reuse
the existing connection when its signature matches, otherwise stop it (if
any) and create a replacement, which lands at the end of the record. -/
def syncAdd : List RealtimeResolvedSubscription → String → ConnMap → Nat →
    SyncAddResult
  | [], _, active, counter => { active := active, counter := counter, torn := [], created := [] }
  | sub :: rest, endpoint, active, counter =>
    let nextSignature := serializeSignature sub endpoint
    match lookupConn active sub.channelId with
    | some existing =>
      if existing.signature = nextSignature then
        syncAdd rest endpoint active counter
      else
        let r := syncAdd rest endpoint
          (eraseConn active sub.channelId ++
            [(sub.channelId, newConnection sub endpoint counter)]) (counter + 1)
        { r with torn := sub.channelId :: r.torn, created := sub.channelId :: r.created }
    | none =>
      let r := syncAdd rest endpoint
        (active ++ [(sub.channelId, newConnection sub endpoint counter)]) (counter + 1)
      { r with created := sub.channelId :: r.created }

/-- State owned by the Subscription Manager: the `activeConnections`
record, the published channel-id → channel-context map (`channels` store),
and the fresh-context counter. -/
structure ManagerState where
  active : ConnMap
  published : List (String × Nat)
  nextId : Nat
deriving DecidableEq, Repr

def initialManagerState : ManagerState :=
  { active := [], published := [], nextId := 0 }

/-- `publishContext`: the published map mirrors `activeConnections`. -/
def publishContext (active : ConnMap) : List (String × Nat) :=
  active.map (fun p => (p.1, p.2.contextId))

/-- Teardown / creation performed by one reconciliation, as channel ids. -/
structure SyncEvents where
  teardowns : List String
  creations : List String
deriving DecidableEq, Repr

/-- `syncConnections`: drop connections no longer desired, then run the
creation loop, then publish the updated channel map. -/
def syncConnections (next : List RealtimeResolvedSubscription) (endpoint : String)
    (st : ManagerState) : ManagerState × SyncEvents :=
  let nextIds := next.map (fun s => s.channelId)
  let kept := keepDesired st.active nextIds
  let removed := removedKeys st.active nextIds
  let r := syncAdd next endpoint kept st.nextId
  ({ active := r.active, published := publishContext r.active, nextId := r.counter },
   { teardowns := removed ++ r.torn, creations := r.created })

/-- `applySubscriptions`: one reconciliation —
`syncConnections(resolveSubscriptions(subscriptions), endpoint)`. A thrown
duplicate-subscription error propagates before `syncConnections` runs, so
the manager's state is untouched in that case. -/
def applySubscriptions (subs : List RealtimeSubscription) (endpoint : String)
    (st : ManagerState) : Except String (ManagerState × SyncEvents) :=
  match resolveSubscriptions subs with
  | .error e => .error e
  | .ok next => .ok (syncConnections next endpoint st)

/-- C8: stream teardown is idempotent. The first `stop` on a live
connection sets the terminal `closed` flag, clears the liveness timer (when
one is set), attempts to cancel the upstream reader (when one is held), and
releases the connection lock exactly once, emitting nothing; `stop` on an
already-closed connection is the identity, so every later trigger (client
disconnect, upstream end, internal failure) has no observable effect. -/
theorem stop_idempotent (s : StreamState) :
    stop (stop s) = stop s ∧
    (s.closed = true → stop s = s) ∧
    (s.closed = false →
      (stop s).closed = true ∧
      (stop s).lockReleaseCount = s.lockReleaseCount + 1 ∧
      (stop s).cancelCount = s.cancelCount + (if s.reader then 1 else 0) ∧
      (stop s).clearIntervalCount = s.clearIntervalCount + (if s.heartbeat then 1 else 0) ∧
      (stop s).healthEmitCount = s.healthEmitCount ∧
      (stop s).messageEmitCount = s.messageEmitCount) := by
  cases hc : s.closed <;> simp [stop, hc]

def streamS0 : StreamState :=
  { closed := false, heartbeat := true, reader := true, clearIntervalCount := 0,
    cancelCount := 0, lockReleaseCount := 0, healthEmitCount := 0, messageEmitCount := 0 }

theorem stop_idempotent_witness :
    stop (stop streamS0) = stop streamS0 ∧
    (stop streamS0).lockReleaseCount = streamS0.lockReleaseCount + 1 :=
  ⟨(stop_idempotent streamS0).1, ((stop_idempotent streamS0).2.2 rfl).2.1⟩

/-- C9: the Failure Resolver returns the hook's string `message` exactly
when a configured override hook returns a conforming object (non-null,
non-array, with a string `message`); with no hook, a non-conforming or void
result, or a thrown hook error, it returns the context's default message —
a hook exception never propagates. -/
theorem failure_resolver_override
    (onFailure : Option (RealtimeServerFailureContext → Except String JsVal))
    (failure : RealtimeServerFailureContext) :
    (onFailure = none → resolveFailureMessage onFailure failure = failure.message) ∧
    (∀ hook v m, onFailure = some hook → hook failure = .ok v →
      hookOverrideMessage v = some m →
      resolveFailureMessage onFailure failure = m) ∧
    (∀ hook v, onFailure = some hook → hook failure = .ok v →
      hookOverrideMessage v = none →
      resolveFailureMessage onFailure failure = failure.message) ∧
    (∀ hook e, onFailure = some hook → hook failure = .error e →
      resolveFailureMessage onFailure failure = failure.message) := by
  refine ⟨fun h => by simp [resolveFailureMessage, h], ?_, ?_, ?_⟩
  · intro hook v m h1 h2 h3
    subst h1
    simp [resolveFailureMessage, h2, h3]
  · intro hook v h1 h2 h3
    subst h1
    simp [resolveFailureMessage, h2, h3]
  · intro hook e h1 h2
    subst h1
    simp [resolveFailureMessage, h2]

def failureCtxW : RealtimeServerFailureContext :=
  { stage := .stream, message := "upstream failed" }

def throwingHook : RealtimeServerFailureContext → Except String JsVal :=
  fun _ => .error "boom"

theorem failure_resolver_override_witness :
    resolveFailureMessage (some throwingHook) failureCtxW = "upstream failed" :=
  (failure_resolver_override (some throwingHook) failureCtxW).2.2.2
    throwingHook "boom" rfl rfl

/-- C2: with a dedicated `reauthorize` callback configured, an upstream
message that passes the three topic checks (topic present, configured for
the channel, authorized for the session) is decided solely by the callback
applied to the context whose `topics` is the one-element list of that
message's topic: the message is forwarded iff the callback returns exactly
the boolean `true`; any other return value (including a truthy non-boolean)
or a thrown error yields a reauthorization `degrade` — a degraded health
emission, no forwarding, and stream closure. -/
theorem reauthorize_requires_exact_true
    (s : StreamSession) (value : JsVal) (t : String)
    (f : ReauthorizeContext → Except String JsVal)
    (hMode : s.shouldReauthorize = true)
    (hCb : s.reauthorize = some f)
    (hTopic : getMessageTopic value = some t)
    (hAvail : includesStr s.availableTopics t = true)
    (hAuthz : includesStr s.authorizedTopics t = true) :
    processMessage s value =
      match f { channelId := s.channelId, topics := [t], params := s.params,
                messageTopic := t, message := value } with
      | .ok (.bool true) => .forward
      | .ok _ => .degrade "Forbidden" [t]
      | .error e => .degrade e [t] := by
  cases value <;> simp [getMessageTopic] at hTopic
  rename_i fields
  simp [processMessage, isNullish, hMode, getMessageTopic, hTopic, hAvail, hAuthz, hCb]
  cases hf : f { channelId := s.channelId, topics := [t], params := s.params, messageTopic := t, message := JsVal.obj fields } with
  | error e => simp [hf]
  | ok v =>
    cases v
    case bool b => cases b <;> simp [hf]
    all_goals simp [hf]

def reauthHookW : ReauthorizeContext → Except String JsVal :=
  fun _ => .ok (.str "yes")

def sessionW : StreamSession :=
  { channelId := "demo", availableTopics := ["alpha"], authorizedTopics := ["alpha"],
    shouldReauthorize := true, reauthorize := some reauthHookW,
    authorize := fun _ => .ok (.bool true), params := none }

def messageW : JsVal := .obj [("topic", .str "alpha"), ("data", .str "x")]

theorem reauthorize_requires_exact_true_witness :
    processMessage sessionW messageW = .degrade "Forbidden" ["alpha"] := by
  have h := reauthorize_requires_exact_true sessionW messageW "alpha" reauthHookW
    rfl rfl rfl rfl rfl
  exact h.trans rfl

/-- C1: once every registry entry's channel identity is resolved (the scan
returned without a thrown resolution error), zero matches yield a 400
`channel-resolution` error response, two or more matches yield a 500
`channel-resolution` error response whose body reports every matching
registry key, and in both cases no stream is opened; exactly one match
continues processing with that entry. -/
theorem channel_resolution_match_spec
    (opts : RealtimeEndpointOptions) (payload : RealtimeRequestPayload)
    (ms : List ChannelMatch)
    (hCh : payload.channel ≠ "")
    (hScan : channelMatchScan opts.channels payload.channel payload.params = .ok ms) :
    (ms = [] →
      (createRealtimeEndpoint opts payload).statusOf = some 400 ∧
      (createRealtimeEndpoint opts payload).stageOf = some .channelResolution ∧
      (createRealtimeEndpoint opts payload).isStream = false) ∧
    (2 ≤ ms.length →
      (createRealtimeEndpoint opts payload).statusOf = some 500 ∧
      (createRealtimeEndpoint opts payload).stageOf = some .channelResolution ∧
      (createRealtimeEndpoint opts payload).isStream = false ∧
      (createRealtimeEndpoint opts payload).bodyLookup "matchingRegistryKeys" =
        some (.list (ms.map (fun m => m.registryKey)))) ∧
    (∀ m, ms = [m] →
      createRealtimeEndpoint opts payload =
        processResolved opts payload m.channelConfig m.resolvedChannel) := by
  refine ⟨?_, ?_, ?_⟩
  · rintro rfl
    simp [createRealtimeEndpoint, hCh, hScan, failRequest, mkErrorBody,
      HandlerResult.statusOf, HandlerResult.stageOf, HandlerResult.isStream]
  · intro hlen
    cases ms with
    | nil => simp at hlen
    | cons m1 tl =>
      cases tl with
      | nil => simp at hlen
      | cons m2 rest =>
        simp [createRealtimeEndpoint, hCh, hScan, failRequest, mkErrorBody,
          HandlerResult.statusOf, HandlerResult.stageOf, HandlerResult.isStream,
          HandlerResult.bodyLookup, HandlerResult.bodyLookup.lookupBody]
  · rintro m rfl
    simp [createRealtimeEndpoint, hCh, hScan]

def cfgW1 : RealtimeChannelConfig :=
  { channel := .obj { name := "demo", topics := ["message"] },
    authorize := fun _ => .ok (.bool true) }

def rcDemo : ResolvedChannel := { name := "demo", topics := ["message"] }

def payloadDemo : RealtimeRequestPayload := { channel := "demo" }

def optsAmb : RealtimeEndpointOptions :=
  { channels := [("k1", cfgW1), ("k2", cfgW1)] }

def msAmb : List ChannelMatch :=
  [⟨"k1", cfgW1, rcDemo⟩, ⟨"k2", cfgW1, rcDemo⟩]

theorem channel_resolution_match_spec_witness :
    (createRealtimeEndpoint optsAmb payloadDemo).statusOf = some 500 ∧
    (createRealtimeEndpoint optsAmb payloadDemo).bodyLookup "matchingRegistryKeys" =
      some (.list ["k1", "k2"]) := by
  have h := (channel_resolution_match_spec optsAmb payloadDemo msAmb
    (by decide) rfl).2.1 (by decide)
  exact ⟨h.1, h.2.2.2⟩

/-- C3: when a single registry entry matches and the requested topic list
contains at least one topic outside the resolved channel's topic set, the
handler answers with a 400 `topic-validation` error response whose body
lists exactly the invalid topic names, no stream is opened, and the result
is independent of the entry's `authorize` callback (the callback is never
invoked: the response expression does not mention it, and replacing the
callback leaves the result unchanged). -/
theorem invalid_topics_rejected_before_authorize
    (opts : RealtimeEndpointOptions) (payload : RealtimeRequestPayload)
    (m : ChannelMatch)
    (hCh : payload.channel ≠ "")
    (hScan : channelMatchScan opts.channels payload.channel payload.params = .ok [m])
    (hInv : invalidTopicsOf (requestedTopicsOf payload m.resolvedChannel)
      m.resolvedChannel.topics ≠ []) :
    (createRealtimeEndpoint opts payload).statusOf = some 400 ∧
    (createRealtimeEndpoint opts payload).stageOf = some .topicValidation ∧
    (createRealtimeEndpoint opts payload).isStream = false ∧
    (createRealtimeEndpoint opts payload).bodyLookup "invalidTopics" =
      some (.list (invalidTopicsOf (requestedTopicsOf payload m.resolvedChannel)
        m.resolvedChannel.topics)) ∧
    (∀ a, processResolved opts payload
        { m.channelConfig with authorize := a } m.resolvedChannel =
      processResolved opts payload m.channelConfig m.resolvedChannel) := by
  have hmain : createRealtimeEndpoint opts payload =
      processResolved opts payload m.channelConfig m.resolvedChannel := by
    simp [createRealtimeEndpoint, hCh, hScan]
  rw [hmain]
  refine ⟨?_, ?_, ?_, ?_, ?_⟩
  · simp [processResolved, hInv, failRequest, HandlerResult.statusOf]
  · simp [processResolved, hInv, failRequest, HandlerResult.stageOf]
  · simp [processResolved, hInv, failRequest, HandlerResult.isStream]
  · simp [processResolved, hInv, failRequest, mkErrorBody,
      HandlerResult.bodyLookup, HandlerResult.bodyLookup.lookupBody]
  · intro a
    simp [processResolved, hInv]

def optsOne : RealtimeEndpointOptions := { channels := [("k1", cfgW1)] }

def mOne : ChannelMatch := ⟨"k1", cfgW1, rcDemo⟩

def payloadBadTopic : RealtimeRequestPayload :=
  { channel := "demo", topics := some ["nope"] }

theorem invalid_topics_rejected_before_authorize_witness :
    (createRealtimeEndpoint optsOne payloadBadTopic).statusOf = some 400 ∧
    (createRealtimeEndpoint optsOne payloadBadTopic).bodyLookup "invalidTopics" =
      some (.list ["nope"]) := by
  have h := invalid_topics_rejected_before_authorize optsOne payloadBadTopic mOne
    (by decide) rfl (by decide)
  exact ⟨h.1, h.2.2.2.1⟩

/-- C4: when `authorize` returns `false`, or returns an `allowedTopics`
object whose intersection with the requested topics is empty, the handler
returns the same 403 `authorization` failure response built from the
default message `Forbidden` (so the two cases are observably identical),
and no stream is opened; with no failure hook configured the body's error
message is exactly `Forbidden`. -/
theorem authorization_denial_forbidden
    (opts : RealtimeEndpointOptions) (payload : RealtimeRequestPayload)
    (m : ChannelMatch)
    (hCh : payload.channel ≠ "")
    (hScan : channelMatchScan opts.channels payload.channel payload.params = .ok [m])
    (hValid : invalidTopicsOf (requestedTopicsOf payload m.resolvedChannel)
      m.resolvedChannel.topics = [])
    (hDeny :
      m.channelConfig.authorize { channelId := m.resolvedChannel.name, topics := requestedTopicsOf payload m.resolvedChannel, params := payload.params } = .ok (.bool false) ∨
      ∃ allowed,
        m.channelConfig.authorize { channelId := m.resolvedChannel.name, topics := requestedTopicsOf payload m.resolvedChannel, params := payload.params } = .ok (.obj allowed) ∧
        filterAllowedTopics (requestedTopicsOf payload m.resolvedChannel) allowed = []) :
    createRealtimeEndpoint opts payload =
      failRequest opts.onFailure 403
        { stage := .authorization, message := "Forbidden", status := some 403,
          requestedChannelId := some payload.channel,
          channelId := some m.resolvedChannel.name,
          topics := some (requestedTopicsOf payload m.resolvedChannel),
          params := payload.params } [] ∧
    (createRealtimeEndpoint opts payload).statusOf = some 403 ∧
    (createRealtimeEndpoint opts payload).isStream = false ∧
    (opts.onFailure = none →
      (createRealtimeEndpoint opts payload).bodyLookup "error" =
        some (.str "Forbidden")) := by
  have hmain : createRealtimeEndpoint opts payload =
      processResolved opts payload m.channelConfig m.resolvedChannel := by
    simp [createRealtimeEndpoint, hCh, hScan]
  have hfail : createRealtimeEndpoint opts payload =
      failRequest opts.onFailure 403
        { stage := .authorization, message := "Forbidden", status := some 403,
          requestedChannelId := some payload.channel,
          channelId := some m.resolvedChannel.name,
          topics := some (requestedTopicsOf payload m.resolvedChannel),
          params := payload.params } [] := by
    rw [hmain]
    rcases hDeny with hFalse | ⟨allowed, hObj, hEmpty⟩
    · simp [processResolved, hValid, authorizeStage, hFalse]
    · simp [processResolved, hValid, authorizeStage, hObj, hEmpty]
  refine ⟨hfail, ?_, ?_, ?_⟩
  · rw [hfail]; rfl
  · rw [hfail]; rfl
  · intro hNone
    rw [hfail]
    simp [failRequest, hNone, resolveFailureMessage, mkErrorBody,
      HandlerResult.bodyLookup, HandlerResult.bodyLookup.lookupBody]

def cfgDeny : RealtimeChannelConfig :=
  { channel := .obj { name := "demo", topics := ["message"] },
    authorize := fun _ => .ok (.obj (some [])) }

def optsDeny : RealtimeEndpointOptions := { channels := [("k1", cfgDeny)] }

def mDeny : ChannelMatch := ⟨"k1", cfgDeny, rcDemo⟩

theorem authorization_denial_forbidden_witness :
    (createRealtimeEndpoint optsDeny payloadDemo).statusOf = some 403 ∧
    (createRealtimeEndpoint optsDeny payloadDemo).bodyLookup "error" =
      some (.str "Forbidden") := by
  have h := authorization_denial_forbidden optsDeny payloadDemo mDeny
    (by decide) rfl rfl (Or.inr ⟨some [], rfl, rfl⟩)
  exact ⟨h.2.1, h.2.2.2 rfl⟩

/-- C10: when a valid subscription request omits `topics` or sends an empty
list, the full topic set of the resolved channel is substituted as the
requested topics, topic validation passes vacuously, and processing reaches
the authorization stage applied to every topic name of the channel (whose
definition invokes `authorize` with exactly that topic list). -/
theorem omitted_topics_default_to_all
    (opts : RealtimeEndpointOptions) (payload : RealtimeRequestPayload)
    (m : ChannelMatch)
    (hCh : payload.channel ≠ "")
    (hScan : channelMatchScan opts.channels payload.channel payload.params = .ok [m])
    (hTopics : payload.topics = none ∨ payload.topics = some []) :
    requestedTopicsOf payload m.resolvedChannel = m.resolvedChannel.topics ∧
    invalidTopicsOf (requestedTopicsOf payload m.resolvedChannel)
      m.resolvedChannel.topics = [] ∧
    createRealtimeEndpoint opts payload =
      authorizeStage opts payload m.channelConfig m.resolvedChannel
        m.resolvedChannel.topics := by
  have h1 : requestedTopicsOf payload m.resolvedChannel = m.resolvedChannel.topics := by
    rcases hTopics with h | h <;> simp [requestedTopicsOf, h]
  have h2a : invalidTopicsOf m.resolvedChannel.topics m.resolvedChannel.topics = [] := by
    simp only [invalidTopicsOf, List.filter_eq_nil_iff]
    intro a ha
    simp [includesStr_iff.mpr ha]
  have h2 : invalidTopicsOf (requestedTopicsOf payload m.resolvedChannel)
      m.resolvedChannel.topics = [] := by
    rw [h1]; exact h2a
  refine ⟨h1, h2, ?_⟩
  have hmain : createRealtimeEndpoint opts payload =
      processResolved opts payload m.channelConfig m.resolvedChannel := by
    simp [createRealtimeEndpoint, hCh, hScan]
  rw [hmain]
  simp [processResolved, h1, h2a]

theorem omitted_topics_default_to_all_witness :
    createRealtimeEndpoint optsOne payloadDemo =
      authorizeStage optsOne payloadDemo cfgW1 rcDemo ["message"] := by
  have h := omitted_topics_default_to_all optsOne payloadDemo mOne
    (by decide) rfl (Or.inl rfl)
  exact h.2.2

theorem includesStr_cons_false {x k : String} {seen : List String}
    (h : includesStr (x :: seen) k = false) :
    x ≠ k ∧ includesStr seen k = false := by
  by_cases hx : x = k
  · simp [includesStr, hx] at h
  · simp only [includesStr, if_neg hx] at h
    exact ⟨hx, h⟩

theorem lookupConn_isSome_of_mem :
    ∀ (l : ConnMap) (p : String × ManagedConnection),
    p ∈ l → lookupConn l p.1 ≠ none
  | (k', c) :: rest, p, h => by
    by_cases hk : k' = p.1
    · simp [lookupConn, hk]
    · have hp : p ∈ rest := by
        rcases List.mem_cons.mp h with h | h
        · exact absurd (congrArg Prod.fst h).symm hk
        · exact h
      simp only [lookupConn, if_neg hk]
      exact lookupConn_isSome_of_mem rest p hp

theorem lookupConn_eraseConn_ne :
    ∀ (l : ConnMap) (k' k : String), k ≠ k' →
    lookupConn (eraseConn l k') k = lookupConn l k
  | [], _, _, _ => rfl
  | (a, c) :: rest, k', k, h => by
    by_cases ha : a = k'
    · subst ha
      have hak : a ≠ k := fun hh => h hh.symm
      simp [eraseConn, lookupConn, hak, lookupConn_eraseConn_ne rest a k h]
    · by_cases hak : a = k
      · simp [eraseConn, ha, lookupConn, hak, h]
      · simp [eraseConn, ha, lookupConn, hak, lookupConn_eraseConn_ne rest k' k h]

theorem lookupConn_eraseConn_self :
    ∀ (l : ConnMap) (k : String), lookupConn (eraseConn l k) k = none
  | [], _ => rfl
  | (a, c) :: rest, k => by
    by_cases ha : a = k
    · simp only [eraseConn, if_pos ha]
      exact lookupConn_eraseConn_self rest k
    · simp only [eraseConn, if_neg ha, lookupConn, if_neg ha]
      exact lookupConn_eraseConn_self rest k

theorem lookupConn_append_of_none :
    ∀ (l m : ConnMap) (k : String), lookupConn l k = none →
    lookupConn (l ++ m) k = lookupConn m k
  | [], m, k, _ => rfl
  | (a, c) :: rest, m, k, h => by
    by_cases ha : a = k
    · simp [lookupConn, ha] at h
    · simp only [lookupConn, if_neg ha] at h
      simp only [List.cons_append, lookupConn, if_neg ha]
      exact lookupConn_append_of_none rest m k h

theorem lookupConn_append_of_some :
    ∀ (l m : ConnMap) (k : String) (c : ManagedConnection),
    lookupConn l k = some c → lookupConn (l ++ m) k = some c
  | [], _, _, _, h => by simp [lookupConn] at h
  | (a, c') :: rest, m, k, c, h => by
    by_cases ha : a = k
    · simp only [lookupConn, if_pos ha] at h
      simp [List.cons_append, lookupConn, ha, h]
    · simp only [lookupConn, if_neg ha] at h
      simp only [List.cons_append, lookupConn, if_neg ha]
      exact lookupConn_append_of_some rest m k c h

/-- Looking up a key other than the replaced one is unchanged by
`delete` + re-insert-at-end. -/
theorem lookupConn_replace_ne (l : ConnMap) (cid : String) (x : ManagedConnection)
    (k : String) (h : k ≠ cid) :
    lookupConn (eraseConn l cid ++ [(cid, x)]) k = lookupConn l k := by
  have he : lookupConn (eraseConn l cid) k = lookupConn l k :=
    lookupConn_eraseConn_ne l cid k h
  cases hl : lookupConn l k with
  | none =>
    rw [lookupConn_append_of_none _ _ _ (he.trans hl)]
    simp [lookupConn, Ne.symm h]
  | some c => exact lookupConn_append_of_some _ _ _ _ (he.trans hl)

/-- `delete` + re-insert-at-end makes the key map to the new connection. -/
theorem lookupConn_replace_self (l : ConnMap) (cid : String) (x : ManagedConnection) :
    lookupConn (eraseConn l cid ++ [(cid, x)]) cid = some x := by
  rw [lookupConn_append_of_none _ _ _ (lookupConn_eraseConn_self l cid)]
  simp [lookupConn]

theorem lookupConn_append_single_ne (l : ConnMap) (cid : String)
    (x : ManagedConnection) (k : String) (h : k ≠ cid) :
    lookupConn (l ++ [(cid, x)]) k = lookupConn l k := by
  cases hl : lookupConn l k with
  | none =>
    rw [lookupConn_append_of_none _ _ _ hl]
    simp [lookupConn, Ne.symm h]
  | some c => exact lookupConn_append_of_some _ _ _ _ hl

theorem lookupConn_append_single_self (l : ConnMap) (cid : String)
    (x : ManagedConnection) (h : lookupConn l cid = none) :
    lookupConn (l ++ [(cid, x)]) cid = some x := by
  rw [lookupConn_append_of_none _ _ _ h]
  simp [lookupConn]

theorem lookupConn_keepDesired :
    ∀ (l : ConnMap) (ids : List String) (k : String),
    includesStr ids k = true →
    lookupConn (keepDesired l ids) k = lookupConn l k
  | [], _, _, _ => rfl
  | (a, c) :: rest, ids, k, h => by
    by_cases hak : a = k
    · subst hak
      simp [keepDesired, h, lookupConn]
    · cases hc : includesStr ids a <;>
        simp [keepDesired, hc, lookupConn, hak, lookupConn_keepDesired rest ids k h]

theorem lookupConn_keepDesired_isSome :
    ∀ (l : ConnMap) (ids : List String) (k : String),
    lookupConn (keepDesired l ids) k ≠ none → includesStr ids k = true
  | [], ids, k, h => absurd rfl h
  | (a, c) :: rest, ids, k, h => by
    cases hc : includesStr ids a with
    | true =>
      by_cases hak : a = k
      · rw [← hak]; exact hc
      · simp [keepDesired, hc, lookupConn, hak] at h
        exact lookupConn_keepDesired_isSome rest ids k h
    | false =>
      simp [keepDesired, hc] at h
      exact lookupConn_keepDesired_isSome rest ids k h

theorem removedKeys_mem :
    ∀ (l : ConnMap) (ids : List String) (k : String),
    k ∈ removedKeys l ids → includesStr ids k = false
  | [], _, _, h => by simp [removedKeys] at h
  | (a, c) :: rest, ids, k, h => by
    cases hc : includesStr ids a with
    | true =>
      simp [removedKeys, hc] at h
      exact removedKeys_mem rest ids k h
    | false =>
      simp [removedKeys, hc] at h
      rcases h with h | h
      · rw [h]; exact hc
      · exact removedKeys_mem rest ids k h

theorem keepDesired_all :
    ∀ (l : ConnMap) (ids : List String),
    (∀ p ∈ l, includesStr ids p.1 = true) →
    keepDesired l ids = l ∧ removedKeys l ids = []
  | [], _, _ => ⟨rfl, rfl⟩
  | (k, c) :: rest, ids, h => by
    have hk : includesStr ids k = true := h (k, c) (List.mem_cons_self _ _)
    have ih := keepDesired_all rest ids (fun p hp => h p (List.mem_cons_of_mem _ hp))
    simp [keepDesired, removedKeys, hk, ih.1, ih.2]

theorem syncAdd_keys :
    ∀ (l : List RealtimeResolvedSubscription) (ep : String) (active : ConnMap)
      (c : Nat) (k : String),
    lookupConn (syncAdd l ep active c).active k ≠ none →
    lookupConn active k ≠ none ∨ k ∈ l.map (fun s => s.channelId)
  | [], _, _, _, _, h => Or.inl h
  | sub :: rest, ep, active, c, k, h => by
    by_cases hk : k = sub.channelId
    · exact Or.inr (by simp [hk])
    · cases hl : lookupConn active sub.channelId with
      | some existing =>
        by_cases hsig : existing.signature = serializeSignature sub ep
        · have h' : lookupConn (syncAdd rest ep active c).active k ≠ none := by
            simpa [syncAdd, hl, hsig] using h
          rcases syncAdd_keys rest ep active c k h' with h1 | h1
          · exact Or.inl h1
          · exact Or.inr (by simp [h1])
        · have h' : lookupConn (syncAdd rest ep
              (eraseConn active sub.channelId ++
                [(sub.channelId, newConnection sub ep c)]) (c + 1)).active k ≠ none := by
            simpa [syncAdd, hl, hsig] using h
          rcases syncAdd_keys rest ep _ (c + 1) k h' with h1 | h1
          · rw [lookupConn_replace_ne _ _ _ _ hk] at h1
            exact Or.inl h1
          · exact Or.inr (by simp [h1])
      | none =>
        have h' : lookupConn (syncAdd rest ep
            (active ++ [(sub.channelId, newConnection sub ep c)]) (c + 1)).active k ≠ none := by
          simpa [syncAdd, hl] using h
        rcases syncAdd_keys rest ep _ (c + 1) k h' with h1 | h1
        · rw [lookupConn_append_single_ne _ _ _ _ hk] at h1
          exact Or.inl h1
        · exact Or.inr (by simp [h1])

theorem syncAdd_lookup_not_mem :
    ∀ (l : List RealtimeResolvedSubscription) (ep : String) (active : ConnMap)
      (c : Nat) (k : String),
    k ∉ l.map (fun s => s.channelId) →
    lookupConn (syncAdd l ep active c).active k = lookupConn active k
  | [], _, _, _, _, _ => rfl
  | sub :: rest, ep, active, c, k, h => by
    have hk : k ≠ sub.channelId := by
      intro hh; exact h (by simp [hh])
    have hr : k ∉ rest.map (fun s => s.channelId) := by
      intro hh; exact h (by simp [hh])
    cases hl : lookupConn active sub.channelId with
    | some existing =>
      by_cases hsig : existing.signature = serializeSignature sub ep
      · simp only [syncAdd, hl]
        rw [if_pos hsig]
        exact syncAdd_lookup_not_mem rest ep active c k hr
      · simp [syncAdd, hl, hsig]
        rw [syncAdd_lookup_not_mem rest ep _ (c + 1) k hr]
        exact lookupConn_replace_ne _ _ _ _ hk
    | none =>
      simp [syncAdd, hl]
      rw [syncAdd_lookup_not_mem rest ep _ (c + 1) k hr]
      exact lookupConn_append_single_ne _ _ _ _ hk

theorem syncAdd_establishes :
    ∀ (l : List RealtimeResolvedSubscription) (ep : String) (active : ConnMap) (c : Nat),
    (l.map (fun s => s.channelId)).Nodup →
    ∀ sub ∈ l, ∃ conn,
      lookupConn (syncAdd l ep active c).active sub.channelId = some conn ∧
      conn.signature = serializeSignature sub ep
  | [], _, _, _, _, sub, hmem => absurd hmem (List.not_mem_nil sub)
  | first :: rest, ep, active, c, hnodup, sub, hmem => by
    rw [List.map_cons] at hnodup
    obtain ⟨hfirst, hnd⟩ := List.nodup_cons.mp hnodup
    rcases List.mem_cons.mp hmem with rfl | hsub
    · cases hl : lookupConn active sub.channelId with
      | some existing =>
        by_cases hsig : existing.signature = serializeSignature sub ep
        · refine ⟨existing, ?_, hsig⟩
          simp only [syncAdd, hl]
          rw [if_pos hsig]
          rw [syncAdd_lookup_not_mem rest ep active c sub.channelId hfirst]
          exact hl
        · refine ⟨newConnection sub ep c, ?_, rfl⟩
          simp [syncAdd, hl, hsig]
          rw [syncAdd_lookup_not_mem rest ep _ (c + 1) sub.channelId hfirst]
          exact lookupConn_replace_self active sub.channelId _
      | none =>
        refine ⟨newConnection sub ep c, ?_, rfl⟩
        simp [syncAdd, hl]
        rw [syncAdd_lookup_not_mem rest ep _ (c + 1) sub.channelId hfirst]
        exact lookupConn_append_single_self active sub.channelId _ hl
    · cases hl : lookupConn active first.channelId with
      | some existing =>
        by_cases hsig : existing.signature = serializeSignature first ep
        · simpa [syncAdd, hl, hsig] using
            syncAdd_establishes rest ep active c hnd sub hsub
        · simpa [syncAdd, hl, hsig] using
            syncAdd_establishes rest ep (eraseConn active first.channelId ++
              [(first.channelId, newConnection first ep c)]) (c + 1) hnd sub hsub
      | none =>
        simpa [syncAdd, hl] using
          syncAdd_establishes rest ep (active ++
            [(first.channelId, newConnection first ep c)]) (c + 1) hnd sub hsub

theorem syncAdd_noop :
    ∀ (l : List RealtimeResolvedSubscription) (ep : String) (active : ConnMap) (c : Nat),
    (∀ sub ∈ l, ∃ conn, lookupConn active sub.channelId = some conn ∧
      conn.signature = serializeSignature sub ep) →
    syncAdd l ep active c = { active := active, counter := c, torn := [], created := [] }
  | [], _, _, _, _ => rfl
  | sub :: rest, ep, active, c, h => by
    obtain ⟨conn, hlk, hsig⟩ := h sub (List.mem_cons_self _ _)
    have ih := syncAdd_noop rest ep active c (fun s hs => h s (List.mem_cons_of_mem _ hs))
    simp [syncAdd, hlk, hsig, ih]

theorem syncAdd_events_subset :
    ∀ (l : List RealtimeResolvedSubscription) (ep : String) (active : ConnMap)
      (c : Nat) (k : String),
    (k ∈ (syncAdd l ep active c).torn → k ∈ l.map (fun s => s.channelId)) ∧
    (k ∈ (syncAdd l ep active c).created → k ∈ l.map (fun s => s.channelId))
  | [], _, _, _, k => by simp [syncAdd]
  | sub :: rest, ep, active, c, k => by
    cases hl : lookupConn active sub.channelId with
    | some existing =>
      by_cases hsig : existing.signature = serializeSignature sub ep
      · refine ⟨fun hk => ?_, fun hk => ?_⟩
        · simp only [syncAdd, hl] at hk
          rw [if_pos hsig] at hk
          exact List.mem_cons_of_mem _ ((syncAdd_events_subset rest ep active c k).1 hk)
        · simp only [syncAdd, hl] at hk
          rw [if_pos hsig] at hk
          exact List.mem_cons_of_mem _ ((syncAdd_events_subset rest ep active c k).2 hk)
      · refine ⟨fun hk => ?_, fun hk => ?_⟩
        · simp [syncAdd, hl, hsig] at hk
          rcases hk with hk | hk
          · simp [hk]
          · exact List.mem_cons_of_mem _ ((syncAdd_events_subset rest ep _ (c + 1) k).1 hk)
        · simp [syncAdd, hl, hsig] at hk
          rcases hk with hk | hk
          · simp [hk]
          · exact List.mem_cons_of_mem _ ((syncAdd_events_subset rest ep _ (c + 1) k).2 hk)
    | none =>
      refine ⟨fun hk => ?_, fun hk => ?_⟩
      · simp [syncAdd, hl] at hk
        exact List.mem_cons_of_mem _ ((syncAdd_events_subset rest ep _ (c + 1) k).1 hk)
      · simp [syncAdd, hl] at hk
        rcases hk with hk | hk
        · simp [hk]
        · exact List.mem_cons_of_mem _ ((syncAdd_events_subset rest ep _ (c + 1) k).2 hk)

theorem syncAdd_mem_events :
    ∀ (l : List RealtimeResolvedSubscription) (ep : String) (active : ConnMap)
      (c : Nat) (sub : RealtimeResolvedSubscription) (conn : ManagedConnection),
    (l.map (fun s => s.channelId)).Nodup → sub ∈ l →
    lookupConn active sub.channelId = some conn →
    ((sub.channelId ∈ (syncAdd l ep active c).torn ↔
        conn.signature ≠ serializeSignature sub ep) ∧
     (sub.channelId ∈ (syncAdd l ep active c).created ↔
        conn.signature ≠ serializeSignature sub ep))
  | [], _, _, _, sub, _, _, hmem, _ => absurd hmem (List.not_mem_nil sub)
  | first :: rest, ep, active, c, sub, conn, hnodup, hmem, hlk => by
    rw [List.map_cons] at hnodup
    obtain ⟨hfirst, hnd⟩ := List.nodup_cons.mp hnodup
    rcases List.mem_cons.mp hmem with rfl | hsub
    · by_cases hsig : conn.signature = serializeSignature sub ep
      · have hne₁ : sub.channelId ∉ (syncAdd rest ep active c).torn :=
          fun hk => hfirst ((syncAdd_events_subset rest ep active c _).1 hk)
        have hne₂ : sub.channelId ∉ (syncAdd rest ep active c).created :=
          fun hk => hfirst ((syncAdd_events_subset rest ep active c _).2 hk)
        simp [syncAdd, hlk, hsig, hne₁, hne₂]
      · simp [syncAdd, hlk, hsig]
    · have hne : first.channelId ≠ sub.channelId := by
        intro hh
        exact hfirst (hh ▸ List.mem_map_of_mem _ hsub)
      cases hl : lookupConn active first.channelId with
      | some existing =>
        by_cases hsig : existing.signature = serializeSignature first ep
        · have ih := syncAdd_mem_events rest ep active c sub conn hnd hsub hlk
          simp only [syncAdd, hl]
          rw [if_pos hsig]
          exact ih
        · have hlk' : lookupConn (eraseConn active first.channelId ++
              [(first.channelId, newConnection first ep c)]) sub.channelId = some conn := by
            rw [lookupConn_replace_ne _ _ _ _ (Ne.symm hne)]
            exact hlk
          have ih := syncAdd_mem_events rest ep _ (c + 1) sub conn hnd hsub hlk'
          simp [syncAdd, hl, hsig, Ne.symm hne, ih.1, ih.2]
      | none =>
        have hlk' : lookupConn (active ++
            [(first.channelId, newConnection first ep c)]) sub.channelId = some conn :=
          lookupConn_append_of_some _ _ _ _ hlk
        have ih := syncAdd_mem_events rest ep _ (c + 1) sub conn hnd hsub hlk'
        simp [syncAdd, hl, Ne.symm hne, ih.1, ih.2]

theorem resolveSubsGo_ok :
    ∀ (subs : List RealtimeSubscription) (seen : List String)
      (next : List RealtimeResolvedSubscription),
    resolveSubsGo subs seen = .ok next →
    next.map (fun s => s.channelId) = subs.map descriptorChannelId ∧
    (next.map (fun s => s.channelId)).Nodup ∧
    (∀ k ∈ next.map (fun s => s.channelId), includesStr seen k = false)
  | [], seen, next, h => by
    simp [resolveSubsGo] at h
    subst h
    simp
  | sub :: rest, seen, next, h => by
    simp only [resolveSubsGo] at h
    by_cases hdup : includesStr seen (resolveChannel sub.channel sub.channelParams).name = true
    · rw [if_pos hdup] at h
      exact Except.noConfusion h
    · rw [if_neg hdup] at h
      cases hrec : resolveSubsGo rest
          ((resolveChannel sub.channel sub.channelParams).name :: seen) with
      | error e =>
        rw [hrec] at h
        exact Except.noConfusion h
      | ok rs =>
        rw [hrec] at h
        injection h with h'
        subst h'
        obtain ⟨ihmap, ihnd, ihseen⟩ := resolveSubsGo_ok rest _ rs hrec
        rw [Bool.not_eq_true] at hdup
        refine ⟨?_, ?_, ?_⟩
        · simp [descriptorChannelId, ihmap]
        · rw [List.map_cons, List.nodup_cons]
          refine ⟨?_, ihnd⟩
          intro hmem
          have := ihseen _ hmem
          simp [includesStr] at this
        · intro k hk
          rw [List.map_cons] at hk
          rcases List.mem_cons.mp hk with hk | hk
          · rw [hk]
            exact hdup
          · exact (includesStr_cons_false (ihseen k hk)).2

/-- A reconciliation on a state already satisfying the post conditions of
`syncConnections` (every desired channel connected under its current
signature, no undesired connection, published map in sync) does nothing. -/
theorem syncConnections_noop (next : List RealtimeResolvedSubscription)
    (ep : String) (st1 : ManagerState)
    (hgood : ∀ sub ∈ next, ∃ conn,
      lookupConn st1.active sub.channelId = some conn ∧
      conn.signature = serializeSignature sub ep)
    (hclosed : ∀ p ∈ st1.active,
      includesStr (next.map (fun s => s.channelId)) p.1 = true)
    (hpub : st1.published = publishContext st1.active) :
    syncConnections next ep st1 = (st1, { teardowns := [], creations := [] }) := by
  obtain ⟨hkeep, hrem⟩ := keepDesired_all st1.active _ hclosed
  have hnoop := syncAdd_noop next ep st1.active st1.nextId hgood
  simp only [syncConnections, hkeep, hrem, hnoop]
  rw [← hpub]
  simp

/-- Reconciling twice in a row: the state after the first pass satisfies
the post conditions, so the second pass is the identity with no events. -/
theorem syncConnections_post (next : List RealtimeResolvedSubscription)
    (ep : String) (st : ManagerState)
    (hnodup : (next.map (fun s => s.channelId)).Nodup) :
    syncConnections next ep (syncConnections next ep st).1 =
      ((syncConnections next ep st).1, { teardowns := [], creations := [] }) := by
  apply syncConnections_noop
  · exact syncAdd_establishes next ep
      (keepDesired st.active (next.map (fun s => s.channelId))) st.nextId hnodup
  · intro p hp
    have hp' : p ∈ (syncAdd next ep
        (keepDesired st.active (next.map (fun s => s.channelId))) st.nextId).active := hp
    rcases syncAdd_keys next ep
        (keepDesired st.active (next.map (fun s => s.channelId))) st.nextId p.1
        (lookupConn_isSome_of_mem _ p hp') with h1 | h1
    · exact lookupConn_keepDesired_isSome st.active _ p.1 h1
    · exact includesStr_iff.mpr h1
  · rfl

/-- C6: reconciliation is idempotent — running the Subscription Manager's
reconciliation a second time with the unchanged descriptor list performs
zero teardowns and zero creations, and returns the state of the first run
unchanged (in particular the published channel map is the same). -/
theorem reconciliation_idempotent
    (subs : List RealtimeSubscription) (endpoint : String)
    (st0 st1 : ManagerState) (ev1 : SyncEvents)
    (h : applySubscriptions subs endpoint st0 = .ok (st1, ev1)) :
    applySubscriptions subs endpoint st1 =
      .ok (st1, { teardowns := [], creations := [] }) := by
  cases hres : resolveSubscriptions subs with
  | error e =>
    simp only [applySubscriptions, hres] at h
    exact Except.noConfusion h
  | ok next =>
    simp only [applySubscriptions, hres] at h
    injection h with h'
    obtain ⟨hmap, hnodup, -⟩ := resolveSubsGo_ok subs [] next hres
    have hfst : (syncConnections next endpoint st0).1 = st1 := by rw [h']
    simp only [applySubscriptions, hres]
    rw [← hfst, syncConnections_post next endpoint st0 hnodup]

def subsMgr : List RealtimeSubscription :=
  [{ channel := .obj { name := "demo", topics := ["message"] } }]

def resMgr : RealtimeResolvedSubscription :=
  { channelId := "demo", topics := ["message"], params := none }

def stMgr1 : ManagerState :=
  { active := [("demo", newConnection resMgr "/api/events" 0)],
    published := [("demo", 0)], nextId := 1 }

theorem reconciliation_idempotent_witness :
    applySubscriptions subsMgr "/api/events" stMgr1 =
      .ok (stMgr1, { teardowns := [], creations := [] }) :=
  reconciliation_idempotent subsMgr "/api/events" initialManagerState stMgr1
    { teardowns := [], creations := ["demo"] } rfl

/-- C7: if two descriptors of the list resolve to the same channel id, the
reconciliation throws synchronously: `resolveSubscriptions` raises before
`syncConnections` runs, so no connection is created or torn down and the
active-connections record and the published channel map are untouched (the
error propagates out of `applySubscriptions` before any state transition). -/
theorem duplicate_channel_rejected
    (subs : List RealtimeSubscription) (endpoint : String) (st : ManagerState)
    (hDup : ¬ (subs.map descriptorChannelId).Nodup) :
    ∃ e, applySubscriptions subs endpoint st = .error e := by
  cases hres : resolveSubscriptions subs with
  | error e => exact ⟨e, by simp [applySubscriptions, hres]⟩
  | ok next =>
    obtain ⟨hmap, hnodup, -⟩ := resolveSubsGo_ok subs [] next hres
    rw [hmap] at hnodup
    exact absurd hnodup hDup

def dupSubs : List RealtimeSubscription :=
  [{ channel := .obj { name := "user:alice", topics := ["presence"] } },
   { channel := .obj { name := "user:alice", topics := ["status"] } }]

theorem duplicate_channel_rejected_witness :
    ∃ e, applySubscriptions dupSubs "/api/events" initialManagerState = .error e :=
  duplicate_channel_rejected dupSubs "/api/events" initialManagerState (by decide)

def subP1 : RealtimeResolvedSubscription :=
  { channelId := "c", topics := ["t"],
    params := some [("a", .str "1"), ("b", .str "2")] }

def subP2 : RealtimeResolvedSubscription :=
  { channelId := "c", topics := ["t"],
    params := some [("b", .str "2"), ("a", .str "1")] }

/-- C5 counterexample: two desired subscriptions with the same endpoint,
channel id, topics, and structurally equal params (the same key-value
pairs, permuted key order) have different signatures — `JSON.stringify`
serializes object keys in insertion order — and reconciling from one to
the other tears the connection down and recreates it. -/
theorem signature_params_key_order_counterexample :
    (subP1.params.getD []).Perm (subP2.params.getD []) ∧
    subP1.channelId = subP2.channelId ∧
    subP1.topics = subP2.topics ∧
    serializeSignature subP1 "/api/events" ≠ serializeSignature subP2 "/api/events" ∧
    (syncConnections [subP2] "/api/events"
        (syncConnections [subP1] "/api/events" initialManagerState).1).2 =
      { teardowns := ["c"], creations := ["c"] } := by
  refine ⟨by decide, rfl, rfl, by decide, by decide⟩

/-- C5 (amended): an existing connection whose channel id is still desired
is torn down and recreated iff its serialized signature differs from the
desired subscription's, and two desired subscriptions with equal endpoint,
channel id, normalized topics, and identically serialized params (equal
key-value sequence, key order included) have equal signatures — so no
teardown or creation occurs for them. -/
theorem signature_change_drives_recreation
    (st : ManagerState) (next : List RealtimeResolvedSubscription) (endpoint : String)
    (sub : RealtimeResolvedSubscription) (conn : ManagedConnection)
    (hNodup : (next.map (fun s => s.channelId)).Nodup)
    (hMem : sub ∈ next)
    (hConn : lookupConn st.active sub.channelId = some conn) :
    (sub.channelId ∈ (syncConnections next endpoint st).2.teardowns ↔
       conn.signature ≠ serializeSignature sub endpoint) ∧
    (sub.channelId ∈ (syncConnections next endpoint st).2.creations ↔
       conn.signature ≠ serializeSignature sub endpoint) ∧
    (∀ sub' : RealtimeResolvedSubscription, sub'.channelId = sub.channelId →
       normalizeTopics sub'.topics = normalizeTopics sub.topics →
       sub'.params = sub.params →
       serializeSignature sub' endpoint = serializeSignature sub endpoint) := by
  have hin : includesStr (next.map (fun s => s.channelId)) sub.channelId = true :=
    includesStr_iff.mpr (List.mem_map_of_mem _ hMem)
  have hkept : lookupConn
      (keepDesired st.active (next.map (fun s => s.channelId))) sub.channelId =
      some conn := by
    rw [lookupConn_keepDesired st.active _ sub.channelId hin]
    exact hConn
  have hev := syncAdd_mem_events next endpoint
    (keepDesired st.active (next.map (fun s => s.channelId))) st.nextId sub conn
    hNodup hMem hkept
  have hnotrem : sub.channelId ∉
      removedKeys st.active (next.map (fun s => s.channelId)) := by
    intro hmem
    rw [removedKeys_mem st.active _ sub.channelId hmem] at hin
    exact Bool.noConfusion hin
  refine ⟨?_, ?_, ?_⟩
  · simp only [syncConnections]
    constructor
    · intro h
      rcases List.mem_append.mp h with h | h
      · exact absurd h hnotrem
      · exact hev.1.mp h
    · intro h
      exact List.mem_append.mpr (Or.inr (hev.1.mpr h))
  · simp only [syncConnections]
    exact hev.2
  · intro sub' h1 h2 h3
    simp [serializeSignature, h1, h2, h3]

def subT1 : RealtimeResolvedSubscription :=
  { channelId := "c", topics := ["t1"], params := none }

def subT2 : RealtimeResolvedSubscription :=
  { channelId := "c", topics := ["t2"], params := none }

def stT : ManagerState := (syncConnections [subT1] "/api/events" initialManagerState).1

theorem signature_change_drives_recreation_witness :
    "c" ∈ (syncConnections [subT2] "/api/events" stT).2.teardowns := by
  have h := signature_change_drives_recreation stT [subT2] "/api/events" subT2
    (newConnection subT1 "/api/events" 0) (by decide) (by decide) rfl
  exact h.1.mpr (by decide)

end Realtime
